import Mathlib

/-!
Verification development for the quiz-solving service (src/app): shallow
embedding in Lean 4 of the content classifier/parser (`quiz_parser.py`),
the answer normalizer (`llm.py`), the submission protocol (`submitter.py`)
and the chain orchestrator (`orchestrator.py`), together with theorems
settling the specification claims about them.

External collaborators (browser rendering, the LLM backend, the HTTP
transport, BeautifulSoup's HTML parsing) are modelled as explicit inputs
or oracle parameters; pure Python string/regex/json primitives are
re-implemented over `List Char` (ASCII fragment, which is the fragment the
source exercises).
-/

namespace PROD2

/-! ## Python string primitives (ASCII fragment) -/

/-- Lowercase every character (models Python `str.lower` on ASCII). -/
def lowerL (cs : List Char) : List Char := cs.map Char.toLower

/-- `startsWithL s pat` : `pat` is a prefix of `s` (models `str.startswith`). -/
def startsWithL : List Char → List Char → Bool
  | _, [] => true
  | [], _ :: _ => false
  | a :: as, b :: bs => a == b && startsWithL as bs

/-- `containsL s pat` : `pat` occurs as a contiguous substring of `s`
(models Python `pat in s`). -/
def containsL : List Char → List Char → Bool
  | [], pat => pat.isEmpty
  | s@(_ :: rest), pat => startsWithL s pat || containsL rest pat

/-- `endsWithL s pat` : `pat` is a suffix of `s` (models `str.endswith`). -/
def endsWithL (s pat : List Char) : Bool := startsWithL s.reverse pat.reverse

/-- String-level wrapper for `containsL`. -/
def sContains (s pat : String) : Bool := containsL s.data pat.data

/-- Case-insensitive containment: `pat` (already lowercase in every use in
the source) occurs in `s.lower()`. -/
def sContainsCI (s pat : String) : Bool := containsL (lowerL s.data) pat.data

/-- String-level wrapper for `endsWithL`. -/
def sEndsWith (s pat : String) : Bool := endsWithL s.data pat.data

/-! ## `QuizParser._determine_quiz_type` (quiz_parser.py lines 153-176) -/

/-- The keyword cascade of `_determine_quiz_type` (lines 164-176), run on the
lowercased page text when no download-extension rule fired. -/
def keyword_quiz_type (text_lower : List Char) : String :=
  if containsL text_lower ("api".data) || containsL text_lower ("endpoint".data) then
    "api"
  else if ["chart", "plot", "graph", "visualiz"].any
      (fun w => containsL text_lower w.data) then
    "visualization"
  else if ["sum", "average", "count", "filter", "sort", "aggregate"].any
      (fun w => containsL text_lower w.data) then
    "data"
  else if ["scrape", "extract", "website", "page"].any
      (fun w => containsL text_lower w.data) then
    "scraping"
  else
    "general"

/-- Embedding of `QuizParser._determine_quiz_type`: Python `x in s` is
substring containment, `s.lower()` is `lowerL`; the early `return`s become
nested `if`s in source order. -/
def determine_quiz_type (text : String) (download_url : Option String) : String :=
  let text_lower := lowerL text.data
  match download_url with
  | some u =>
      let ul := lowerL u.data
      if containsL ul (".pdf".data) then "pdf"
      else if [".csv", ".xlsx", ".json"].any (fun e => containsL ul e.data) then "data"
      else keyword_quiz_type text_lower
  | none => keyword_quiz_type text_lower

/-! ## Data model (models.py) -/

/-- `QuizResult` (models.py): verdict of one submission attempt.
`url` and `reason` default to `None` in the source; here every
construction site spells them out. -/
structure QuizResult where
  correct : Bool
  url : Option String
  reason : Option String
deriving DecidableEq, Repr

/-- `AnswerSubmission` (models.py): the outbound POST body
`\x7bemail, secret, url, answer\x7d`, generic over the answer's type
(`answer: Any` in the source). -/
structure AnswerSubmission (α : Type) where
  email : String
  secret : String
  url : String
  answer : α
deriving Repr

/-! ## `AnswerSubmitter.submit_answer` (submitter.py lines 18-74) -/

/-- The fields `data.get("correct", False)` / `data.get("url")` /
`data.get("reason")` read from a successfully decoded 200 body; `none`
models a missing key. -/
structure VerdictBody where
  correct : Option Bool
  url : Option String
  reason : Option String
deriving DecidableEq, Repr

/-- One HTTP POST exchange as observed by `submit_answer`:
`exn msg` models a transport-level exception (`str(e)`); `resp` carries the
status code, the body text, and — for the 200 branch — the outcome of
`response.json()` plus field extraction, where `Except.error e` models any
exception raised while decoding the body (malformed JSON, non-object body,
field validation), with `e = str(e)`. -/
inductive PostOutcome where
  | exn (msg : String)
  | resp (status : Nat) (text : String) (body : Except String VerdictBody)
deriving Repr

/-- Embedding of `AnswerSubmitter.submit_answer`. The single
`self.client.post` call is the oracle `post`, indexed by a call counter so
that "never retries internally" is expressible; the function performs call
`post 0` only. Returns the payload it built together with the
`QuizResult`. -/
def submit_answer {α : Type} (email secret : String)
    (submission_url quiz_url : String) (answer : α)
    (post : Nat → String → AnswerSubmission α → PostOutcome) :
    AnswerSubmission α × QuizResult :=
  let payload : AnswerSubmission α :=
    { email := email, secret := secret, url := quiz_url, answer := answer }
  let result : QuizResult :=
    match post 0 submission_url payload with
    | .exn e => { correct := false, url := none, reason := some e }
    | .resp status text body =>
        if status == 200 then
          match body with
          | .ok d => { correct := d.correct.getD false, url := d.url, reason := d.reason }
          | .error e => { correct := false, url := none, reason := some e }
        else
          { correct := false, url := none,
            reason := some ("HTTP " ++ toString status ++ ": " ++ text) }
  (payload, result)

/-! ## `QuizOrchestrator` (orchestrator.py) -/

/-- Observable outcome of one `solve_single_quiz` run: the returned
`QuizResult`, the answers POSTed in order, and how many times the
step-level visual fallback (line 114, `_solve_with_vision`) ran. -/
structure StepOutcome (α : Type) where
  result : QuizResult
  submitted : List α
  visionRetries : Nat
deriving Repr

/-- Embedding of `QuizOrchestrator.solve_single_quiz`
(orchestrator.py lines 66-121). The rendered page fetch and the parser are
upstream of the behaviour under study, so the step sees the parsed
`submission_url` directly; `byType` is the outcome of
`self._solve_by_type(...)` (`Except.error` models the solver raising,
which this function does not catch — there is no try/except here);
`vision` is the outcome of `self._solve_with_vision(...)`; `submit n a`
is the verdict of the n-th `self.submitter.submit_answer` call (that
function is total, see `submit_answer`). -/
def solve_single_quiz {α : Type} (submission_url : String)
    (byType : Except String α) (vision : Except String α)
    (submit : Nat → α → QuizResult) : Except String (StepOutcome α) :=
  if submission_url == "" then
    .ok { result := { correct := false, url := none,
                      reason := some "No submission URL found" },
          submitted := [], visionRetries := 0 }
  else
    match byType with
    | .error e => .error e
    | .ok answer =>
        let result := submit 0 answer
        if !result.correct && result.url.isNone then
          match vision with
          | .error e => .error e
          | .ok va =>
              let result2 := submit 1 va
              .ok { result := result2, submitted := [answer, va], visionRetries := 1 }
        else
          .ok { result := result, submitted := [answer], visionRetries := 0 }

/-- Python truthiness of the loop guard's `current_url`
(`Optional[str]`): `None` and `""` are falsy. -/
def truthyUrl : Option String → Bool
  | none => false
  | some s => !(s == "")

/-- The `while` loop of `QuizOrchestrator.solve_quiz_chain`
(orchestrator.py lines 41-61). `step n u` is the outcome of
`solve_single_quiz(u)` for question number `n` (1-based); `none` models
the step raising, which the `except` branch turns into a `break`.
`results` accumulates `self.results`; the returned `Nat` is the final
`question_count`. -/
def chainLoop (step : Nat → String → Option QuizResult) (max_questions : Nat)
    (current : Option String) (count : Nat) (results : List QuizResult) :
    List QuizResult × Nat :=
  if _h : truthyUrl current = true ∧ count < max_questions then
    match step (count + 1) (current.getD "") with
    | none => (results, count + 1)
    | some r => chainLoop step max_questions r.url (count + 1) (results ++ [r])
  else (results, count)
termination_by max_questions - count
decreasing_by omega

/-- Embedding of `QuizOrchestrator.solve_quiz_chain` (lines 30-64): start
from the initial URL with `question_count = 0` and no recorded results.
The source's default for `max_questions` is 20. -/
def solve_quiz_chain (step : Nat → String → Option QuizResult)
    (initial_url : String) (max_questions : Nat) : List QuizResult × Nat :=
  chainLoop step max_questions (some initial_url) 0 []

/-! ## `urllib.parse` model (urlparse / urljoin, ASCII fragment)

Faithful re-implementation of CPython's `urlsplit`, `urlparse`,
`urlunsplit`, `urlunparse` and `urljoin` over `List Char`, restricted to
the ASCII fragment (the WHATWG control-character stripping, IPv6 bracket
validation and non-ASCII netloc checks of the original are vacuous on the
inputs this repository handles and are not modelled). -/

/-- ASCII letter test (models `str.isascii() and str.isalpha()`). -/
def isAsciiAlpha (c : Char) : Bool :=
  (97 ≤ c.toNat && c.toNat ≤ 122) || (65 ≤ c.toNat && c.toNat ≤ 90)

/-- ASCII digit test. -/
def isAsciiDigit (c : Char) : Bool := 48 ≤ c.toNat && c.toNat ≤ 57

/-- Characters allowed in a URL scheme (`urllib.parse.scheme_chars`). -/
def isSchemeChar (c : Char) : Bool :=
  isAsciiAlpha c || isAsciiDigit c || c == '+' || c == '-' || c == '.'

/-- `urllib.parse.uses_relative`. -/
def uses_relative : List String :=
  ["", "ftp", "http", "gopher", "nntp", "imap", "wais", "file", "https",
   "shttp", "mms", "prospero", "rtsp", "rtsps", "rtspu", "sftp", "svn",
   "svn+ssh", "ws", "wss"]

/-- `urllib.parse.uses_netloc`. -/
def uses_netloc : List String :=
  ["", "ftp", "http", "gopher", "nntp", "telnet", "imap", "wais", "file",
   "mms", "https", "shttp", "snews", "prospero", "rtsp", "rtsps", "rtspu",
   "rsync", "svn", "svn+ssh", "sftp", "nfs", "git", "git+ssh", "ws", "wss"]

/-- `urllib.parse.uses_params`. -/
def uses_params : List String :=
  ["", "ftp", "hdl", "prospero", "http", "imap", "https", "shttp", "rtsp",
   "rtsps", "rtspu", "sip", "sips", "mms", "sftp", "tel"]

/-- Split a char list at every occurrence of `sep`
(models Python `str.split(sep)` for a one-character separator). -/
def splitCharList (sep : Char) : List Char → List (List Char)
  | [] => [[]]
  | c :: rest =>
      let r := splitCharList sep rest
      if c == sep then [] :: r
      else
        match r with
        | [] => [[c]]
        | h :: t => (c :: h) :: t

/-- Split at the first occurrence of `sep` (models `str.split(sep, 1)`),
returning `none` when `sep` does not occur. -/
def splitFirst (sep : Char) : List Char → Option (List Char × List Char)
  | [] => none
  | c :: rest =>
      if c == sep then some ([], rest)
      else (splitFirst sep rest).map (fun p => (c :: p.1, p.2))

/-- The six components of `urllib.parse.urlparse`. -/
structure UrlParts where
  scheme : List Char
  netloc : List Char
  path : List Char
  params : List Char
  query : List Char
  fragment : List Char
deriving Repr, DecidableEq

/-- `_splitparams(url)`: split `;params` off the last path segment. -/
def splitParams (path : List Char) : List Char × List Char :=
  if path.contains '/' then
    let start :=
      match (path.reverse.findIdx? (fun c => c == '/')) with
      | some j => path.length - 1 - j
      | none => 0
    match ((path.drop start).findIdx? (fun c => c == ';')) with
    | some k => (path.take (start + k), path.drop (start + k + 1))
    | none => (path, [])
  else
    match splitFirst ';' path with
    | some (a, b) => (a, b)
    | none => (path, [])

/-- `urllib.parse.urlparse(url, scheme)` (with `allow_fragments = True`). -/
def urlparseM (url : List Char) (default_scheme : List Char) : UrlParts :=
  -- scheme: chars before the first ':' when they form a valid scheme
  let (scheme, rest) :=
    match url.findIdx? (fun c => c == ':') with
    | some i =>
        if 0 < i && isAsciiAlpha (url.headD ' ') && (url.take i).all isSchemeChar then
          (lowerL (url.take i), url.drop (i + 1))
        else (default_scheme, url)
    | none => (default_scheme, url)
  -- netloc: after a leading "//", up to the first of '/', '?', '#'
  let (netloc, rest) :=
    if startsWithL rest ['/', '/'] then
      let body := rest.drop 2
      let nl := body.takeWhile (fun c => !(c == '/' || c == '?' || c == '#'))
      (nl, body.drop nl.length)
    else ([], rest)
  let (rest, fragment) := (splitFirst '#' rest).getD (rest, [])
  let (path, query) := (splitFirst '?' rest).getD (rest, [])
  let (path, params) :=
    if uses_params.contains (String.mk scheme) && path.contains ';' then
      splitParams path
    else (path, [])
  ⟨scheme, netloc, path, params, query, fragment⟩

/-- `urllib.parse.urlunsplit`. -/
def urlunsplitM (scheme netloc path query fragment : List Char) : List Char :=
  let url := path
  let url :=
    if !netloc.isEmpty ||
        (!scheme.isEmpty && uses_netloc.contains (String.mk scheme) &&
          !startsWithL url ['/', '/']) then
      let url := if !url.isEmpty && !startsWithL url ['/'] then '/' :: url else url
      '/' :: '/' :: (netloc ++ url)
    else url
  let url := if !scheme.isEmpty then scheme ++ ':' :: url else url
  let url := if !query.isEmpty then url ++ '?' :: query else url
  if !fragment.isEmpty then url ++ '#' :: fragment else url

/-- `urllib.parse.urlunparse`. -/
def urlunparseM (p : UrlParts) : List Char :=
  let path := if !p.params.isEmpty then p.path ++ ';' :: p.params else p.path
  urlunsplitM p.scheme p.netloc path p.query p.fragment

/-- The resolved-segment accumulation loop of `urljoin`
(`'..'` pops, `'.'` is dropped, anything else is appended). -/
def resolveSegs (segments : List (List Char)) : List (List Char) :=
  segments.foldl
    (fun acc seg =>
      if seg == ('.'.toString.data ++ '.'.toString.data) then acc.dropLast
      else if seg == ['.'] then acc
      else acc ++ [seg])
    []

/-- `segments[1:-1] = filter(None, segments[1:-1])`: drop empty segments,
keeping the first and last elements. -/
def filterMiddle (xs : List (List Char)) : List (List Char) :=
  match xs with
  | [] => []
  | [a] => [a]
  | a :: rest =>
      a :: ((rest.dropLast.filter (fun s => !s.isEmpty)) ++ [rest.getLastD []])

/-- `urllib.parse.urljoin(base, url)`. -/
def urljoinM (base url : List Char) : List Char :=
  if base.isEmpty then url
  else if url.isEmpty then base
  else
    let b := urlparseM base []
    let r := urlparseM url b.scheme
    if r.scheme ≠ b.scheme || !uses_relative.contains (String.mk r.scheme) then url
    else
      let (stop, netloc) :=
        if uses_netloc.contains (String.mk r.scheme) then
          if !r.netloc.isEmpty then (true, r.netloc) else (false, b.netloc)
        else (false, r.netloc)
      if stop then urlunparseM ⟨r.scheme, netloc, r.path, r.params, r.query, r.fragment⟩
      else if r.path.isEmpty && r.params.isEmpty then
        let query := if r.query.isEmpty then b.query else r.query
        urlunparseM ⟨r.scheme, netloc, b.path, b.params, query, r.fragment⟩
      else
        let base_parts := splitCharList '/' b.path
        let base_parts :=
          if base_parts.getLastD [] ≠ [] then base_parts.dropLast else base_parts
        let segments :=
          if startsWithL r.path ['/'] then splitCharList '/' r.path
          else filterMiddle (base_parts ++ splitCharList '/' r.path)
        let resolved := resolveSegs segments
        let resolved :=
          if segments.getLastD [] == ['.'] ||
              segments.getLastD [] == ('.'.toString.data ++ '.'.toString.data) then
            resolved ++ [[]]
          else resolved
        let path := (resolved.intersperse ['/']).flatten
        let path := if path.isEmpty then ['/'] else path
        urlunparseM ⟨r.scheme, netloc, path, r.params, r.query, r.fragment⟩

/-! ## `QuizParser.make_absolute_url` (quiz_parser.py lines 114-123) -/

/-- Embedding of `QuizParser.make_absolute_url`: a URL starting with the
four characters "http" is returned unchanged; otherwise it is joined onto
`scheme://netloc` of the parsed base URL. -/
def make_absolute_url (url base_url : String) : String :=
  if startsWithL url.data ("http".data) then url
  else
    let parsed := urlparseM base_url.data []
    let base := parsed.scheme ++ ("://".data) ++ parsed.netloc
    String.mk (urljoinM base url.data)

/-! ## Regex primitives for `_extract_submission_url` / `_extract_download_url`

Each regex in quiz_parser.py is modelled by a dedicated search function with
Python `re` semantics (leftmost match; greedy quantifiers; `re.IGNORECASE`
where the source passes it). Character classes are the source's literal
negated classes, over ASCII whitespace. -/

/-- Python regex `\s` / `str.strip` whitespace (ASCII fragment). -/
def isWs (c : Char) : Bool :=
  c == ' ' || c == '\t' || c == '\n' || c == '\r' || c.toNat == 11 || c.toNat == 12

/-- The class `[^\s<>"\'\x7b\x7d\[\]]` used by submission-URL patterns 1-4. -/
def isC1 (c : Char) : Bool :=
  !(isWs c || c == '<' || c == '>' || c == '"' || c.toNat == 39 ||
    c.toNat == 123 || c.toNat == 125 || c == '[' || c == ']')

/-- The class `[^\s<>"\']` used by the findall fallback and the
download-URL text pattern. -/
def isC3 (c : Char) : Bool :=
  !(isWs c || c == '<' || c == '>' || c == '"' || c.toNat == 39)

/-- The class `[^\s<>"\'/\n]` of the base-origin pattern (line 95). -/
def isCB (c : Char) : Bool := isC3 c && !(c == '/')

/-- Match `https?://` case-insensitively at the head, returning the matched
characters as written and the remainder. -/
def matchSchemeCI : List Char → Option (List Char × List Char)
  | a :: b :: c :: d :: rest =>
      if lowerL [a, b, c, d] == ("http".data) then
        match rest with
        | e :: rest2 =>
            if Char.toLower e == 's' && startsWithL rest2 [':', '/', '/'] then
              some ([a, b, c, d, e, ':', '/', '/'], rest2.drop 3)
            else if startsWithL rest [':', '/', '/'] then
              some ([a, b, c, d, ':', '/', '/'], rest.drop 3)
            else none
        | [] => none
      else none
  | _ => none

/-- Match `https?://` case-sensitively (patterns compiled without
`re.IGNORECASE`: the base-origin search and the findall fallback). -/
def matchSchemeCS : List Char → Option (List Char × List Char)
  | a :: b :: c :: d :: rest =>
      if [a, b, c, d] == ("http".data) then
        match rest with
        | e :: rest2 =>
            if e == 's' && startsWithL rest2 [':', '/', '/'] then
              some ([a, b, c, d, e, ':', '/', '/'], rest2.drop 3)
            else if startsWithL rest [':', '/', '/'] then
              some ([a, b, c, d, ':', '/', '/'], rest.drop 3)
            else none
        | [] => none
      else none
  | _ => none

/-- One attempt of patterns 1/2 (`https?://[^..]+LIT(?:[^..]*)?`,
IGNORECASE) at the current position: the `+` is greedy over `isC1`, `LIT`
(`/submit` or `/answer`, all of whose characters lie in the class) must
occur at offset ≥ 1 inside the run, and the optional tail extends the
match to the end of the run, so the whole match is scheme ++ run. -/
def tryUrlLitAt (lit : List Char) (cs : List Char) : Option (List Char) :=
  (matchSchemeCI cs).bind (fun p =>
    let run := p.2.takeWhile isC1
    if containsL (lowerL (run.drop 1)) lit then some (p.1 ++ run) else none)

/-- Leftmost search for patterns 1/2. -/
def searchUrlLit (lit : List Char) : List Char → Option (List Char)
  | [] => none
  | cs@(_ :: rest) =>
      match tryUrlLitAt lit cs with
      | some m => some m
      | none => searchUrlLit lit rest

/-- Group 1 of patterns 3/4 once positioned after the introducing phrase:
`\s+(https?://[^..]+)` — at least one whitespace, then the scheme, then a
non-empty greedy `isC1` run. -/
def tryWsUrl (cs : List Char) : Option (List Char) :=
  let ws := cs.takeWhile isWs
  if ws.isEmpty then none
  else
    (matchSchemeCI (cs.drop ws.length)).bind (fun p =>
      let run := p.2.takeWhile isC1
      if run.isEmpty then none else some (p.1 ++ run))

/-- One attempt of pattern 3 (`Post your answer to\s+(https?://[^..]+)`,
IGNORECASE) at the current position. -/
def tryPostYourAnswerAt (cs : List Char) : Option (List Char) :=
  let lit := "post your answer to".data
  if lowerL (cs.take lit.length) == lit && lit.length ≤ cs.length then
    tryWsUrl (cs.drop lit.length)
  else none

/-- Leftmost search for pattern 3. -/
def searchPostYourAnswer : List Char → Option (List Char)
  | [] => none
  | cs@(_ :: rest) =>
      match tryPostYourAnswerAt cs with
      | some m => some m
      | none => searchPostYourAnswer rest

/-- The lazy `.*?to\s+(url)` tail of pattern 4: scan forward (shortest
first), never crossing a newline (`.` does not match `\n`), for `to`
(IGNORECASE) followed by `\s+(https?://[^..]+)`. -/
def tryLazyToUrl : List Char → Option (List Char)
  | [] => none
  | cs@(c :: rest) =>
      (if lowerL (cs.take 2) == ("to".data) && 2 ≤ cs.length then
        tryWsUrl (cs.drop 2)
      else none).orElse (fun _ => if c == '\n' then none else tryLazyToUrl rest)

/-- One attempt of pattern 4 (`POST.*?to\s+(https?://[^..]+)`, IGNORECASE)
at the current position. -/
def tryPostToAt (cs : List Char) : Option (List Char) :=
  if lowerL (cs.take 4) == ("post".data) && 4 ≤ cs.length then
    tryLazyToUrl (cs.drop 4)
  else none

/-- Leftmost search for pattern 4. -/
def searchPostTo : List Char → Option (List Char)
  | [] => none
  | cs@(_ :: rest) =>
      match tryPostToAt cs with
      | some m => some m
      | none => searchPostTo rest

/-- Leftmost search for the base-origin pattern
`(https?://[^\s<>"\'/\n]+)` (case-sensitive, line 95). -/
def searchBaseUrl : List Char → Option (List Char)
  | [] => none
  | cs@(_ :: rest) =>
      match
        (matchSchemeCS cs).bind (fun p =>
          let run := p.2.takeWhile isCB
          if run.isEmpty then none else some (p.1 ++ run))
      with
      | some m => some m
      | none => searchBaseUrl rest

/-- `re.findall(r'https?://[^\s<>"\']+', s)`: leftmost non-overlapping
matches, scanning resuming after each match (case-sensitive). The fuel is
the remaining input length. -/
def findallUrlsAux : Nat → List Char → List (List Char)
  | 0, _ => []
  | _ + 1, [] => []
  | fuel + 1, cs@(_ :: rest) =>
      match matchSchemeCS cs with
      | some p =>
          let run := p.2.takeWhile isC3
          if run.isEmpty then findallUrlsAux fuel rest
          else (p.1 ++ run) :: findallUrlsAux fuel (p.2.drop run.length)
      | none => findallUrlsAux fuel rest

/-- Entry point for the findall fallback. -/
def findallUrls (cs : List Char) : List (List Char) := findallUrlsAux cs.length cs

/-- `re.sub(r'\n(?=\/)', '', text)` (line 64): delete every newline that
is immediately followed by a slash. -/
def normNlSlash : List Char → List Char
  | [] => []
  | c :: rest =>
      if c == '\n' && rest.headD ' ' == '/' then normNlSlash rest
      else c :: normNlSlash rest

/-- `re.sub(r'(https?://[^\s]+)\n([^\s]+)', r'\1\2', s)` (line 65): join a
URL broken across one newline; scanning resumes after the replacement. -/
def normJoinUrlsAux : Nat → List Char → List Char
  | 0, cs => cs
  | _ + 1, [] => []
  | fuel + 1, cs@(c :: rest) =>
      match
        (matchSchemeCS cs).bind (fun p =>
          let run1 := p.2.takeWhile (fun d => !isWs d)
          if run1.isEmpty then none
          else
            match p.2.drop run1.length with
            | '\n' :: tl =>
                let run2 := tl.takeWhile (fun d => !isWs d)
                if run2.isEmpty then none
                else some (p.1 ++ run1 ++ run2, tl.drop run2.length)
            | _ => none)
      with
      | some pr => pr.1 ++ normJoinUrlsAux fuel pr.2
      | none => c :: normJoinUrlsAux fuel rest

/-- Entry point for the URL-joining normalization. -/
def normJoinUrls (cs : List Char) : List Char := normJoinUrlsAux cs.length cs

/-- Drop trailing characters satisfying `p`
(models `str.rstrip(set)` / `re.sub(r'[set]+$', '', s)`). -/
def rstripP (p : Char → Bool) (cs : List Char) : List Char :=
  (cs.reverse.dropWhile p).reverse

/-- Trailing-cleanup class of line 90: `[\x7b\x7d\[\]<>"\'\s.,;:]`. -/
def isTrail1 (c : Char) : Bool :=
  c.toNat == 123 || c.toNat == 125 || c == '[' || c == ']' || c == '<' ||
  c == '>' || c == '"' || c.toNat == 39 || isWs c || c == '.' || c == ',' ||
  c == ';' || c == ':'

/-- Trailing-cleanup class of line 101: `[\x7b\x7d\[\]<>"\'\s]`. -/
def isTrail2 (c : Char) : Bool :=
  c.toNat == 123 || c.toNat == 125 || c == '[' || c == ']' || c == '<' ||
  c == '>' || c == '"' || c.toNat == 39 || isWs c

/-- `str.rstrip(".,;:\"'")` class (lines 109, 149). -/
def isTrail3 (c : Char) : Bool :=
  c == '.' || c == ',' || c == ';' || c == ':' || c == '"' || c.toNat == 39

/-! ## `QuizParser._extract_submission_url` (quiz_parser.py lines 59-112) -/

/-- Embedding of `QuizParser._extract_submission_url`. BeautifulSoup's
HTML parsing is upstream: `links` is the list of `href` values of the
page's anchor elements in document order (`soup.find_all("a", href=True)`).
Stages in source order: text normalization; anchor hrefs containing
"submit"; the four text patterns; origin + "/submit" reconstruction; the
findall fallback; empty string. -/
def extract_submission_url (text : String) (links : List String) : String :=
  let t := text.data
  let normalized := normJoinUrls (normNlSlash t)
  match links.find? (fun href => containsL (lowerL href.data) ("submit".data)) with
  | some href => href
  | none =>
      let pat :=
        match searchUrlLit ("/submit".data) normalized with
        | some m => some m
        | none =>
            match searchUrlLit ("/answer".data) normalized with
            | some m => some m
            | none =>
                match searchPostYourAnswer normalized with
                | some m => some m
                | none => searchPostTo normalized
      match pat with
      | some url => String.mk (rstripP isTrail1 url)
      | none =>
          let viaBase :=
            match searchBaseUrl t with
            | some base =>
                if containsL (lowerL t) ("/submit".data) then
                  some (String.mk (rstripP isTrail2 (base ++ ("/submit".data))))
                else none
            | none => none
          match viaBase with
          | some u => u
          | none =>
              match
                (findallUrls normalized).find? (fun u =>
                  containsL (lowerL u) ("submit".data) ||
                  containsL (lowerL u) ("answer".data))
              with
              | some u => String.mk (rstripP isTrail3 u)
              | none => ""

/-! ## `QuizParser._extract_download_url` (quiz_parser.py lines 125-151) -/

/-- The fixed extension list of line 131. -/
def file_extensions : List String :=
  [".pdf", ".csv", ".json", ".xlsx", ".txt", ".zip"]

/-- One attempt of the download text pattern
`(https?://[^\s<>"\']+X[^\s<>"\']*)` at the current position, where `X` is
the extension string interpolated UNESCAPED into the regex — its leading
`.` is the regex wildcard (any character but newline) and `suffix3` is the
remaining literal (e.g. `pdf`), matched case-insensitively. The greedy
`[^..]+` picks the largest wildcard position inside (or just after) the
class run; the trailing `[^..]*` extends the match through the following
class run. -/
def tryExtUrlAt (suffix3 : List Char) (cs : List Char) : Option (List Char) :=
  (matchSchemeCI cs).bind (fun p =>
    let after := p.2
    let runLen := (after.takeWhile isC3).length
    let ok : Nat → Bool := fun k =>
      1 ≤ k && k ≤ runLen &&
        (match after.drop k with
         | c :: tl => c != '\n' && startsWithL (lowerL tl) suffix3
         | [] => false)
    match ((List.range (runLen + 1)).reverse.find? ok) with
    | some k =>
        let tail := (after.drop (k + 1 + suffix3.length)).takeWhile isC3
        some (p.1 ++ after.take (k + 1 + suffix3.length + tail.length))
    | none => none)

/-- Leftmost search for the download text pattern of one extension. -/
def searchExtUrl (suffix3 : List Char) : List Char → Option (List Char)
  | [] => none
  | cs@(_ :: rest) =>
      match tryExtUrlAt suffix3 cs with
      | some m => some m
      | none => searchExtUrl suffix3 rest

/-- Embedding of `QuizParser._extract_download_url`. `links` is the list
of anchor `href` values in document order; `text` is `soup.get_text()` of
the page. The anchor loop returns the first href containing any extension
(as a literal substring of its lowercasing); the source's inner
`startswith("http")` conditional returns `href` on both branches and is
modelled by that single return. The text stage tries the extensions in
list order, each with its own `re.search`. -/
def extract_download_url (links : List String) (text : String) : Option String :=
  match
    links.find? (fun href =>
      file_extensions.any (fun e => containsL (lowerL href.data) e.data))
  with
  | some href => some href
  | none =>
      let rec textScan : List String → Option String
        | [] => none
        | e :: es =>
            match searchExtUrl (e.data.drop 1) text.data with
            | some m => some (String.mk (rstripP isTrail3 m))
            | none => textScan es
      textScan file_extensions

/-! ## Python value model and `json.loads` (for `LLMService._parse_answer`)

Python values that `_parse_answer` can return: JSON-decoded structures,
plus the `bool` / `int` / `float` / `str` branches. Floats are modelled
exactly as rationals (every decimal literal the function parses denotes a
decimal rational; IEEE-754 rounding is not modelled), with the non-finite
constants Python's `json` accepts (`NaN`, `Infinity`, `-Infinity`) as
separate constructors. -/

inductive PyVal where
  | pnone
  | pbool (b : Bool)
  | pint (n : Int)
  | pfloat (q : ℚ)
  | pnan
  | pinf (neg : Bool)
  | pstr (s : String)
  | plist (xs : List PyVal)
  | pdict (fields : List (String × PyVal))
deriving Repr

/-- JSON whitespace (RFC 8259: space, tab, newline, carriage return). -/
def jsonWsC (c : Char) : Bool := c == ' ' || c == '\t' || c == '\n' || c == '\r'

/-- Hex digit value. -/
def hexVal (c : Char) : Option Nat :=
  if isAsciiDigit c then some (c.toNat - 48)
  else if 97 ≤ c.toNat && c.toNat ≤ 102 then some (c.toNat - 87)
  else if 65 ≤ c.toNat && c.toNat ≤ 70 then some (c.toNat - 55)
  else none

/-- Digits to `Nat`. -/
def digitsToNat (ds : List Char) : Nat :=
  ds.foldl (fun a c => a * 10 + (c.toNat - 48)) 0

/-- JSON string body after the opening quote: returns content and the
remainder after the closing quote. Escapes follow Python's strict decoder;
`\uXXXX` surrogate pairs are combined; a lone surrogate (which Python
represents as a lone-surrogate `str` element, not expressible as a Lean
`Char`) degrades to `Char.ofNat`'s default. -/
def parseJStr : Nat → List Char → Option (List Char × List Char)
  | 0, _ => none
  | fuel + 1, cs =>
      match cs with
      | [] => none
      | c :: rest =>
          if c == '"' then some ([], rest)
          else if c.toNat == 92 then
            match rest with
            | [] => none
            | e :: rest2 =>
                let simple : Option Char :=
                  if e == '"' then some '"'
                  else if e.toNat == 92 then some (Char.ofNat 92)
                  else if e == '/' then some '/'
                  else if e == 'b' then some (Char.ofNat 8)
                  else if e == 'f' then some (Char.ofNat 12)
                  else if e == 'n' then some '\n'
                  else if e == 'r' then some '\r'
                  else if e == 't' then some '\t'
                  else none
                match simple with
                | some d => (parseJStr fuel rest2).map (fun p => (d :: p.1, p.2))
                | none =>
                    if e == 'u' then
                      match rest2 with
                      | h1 :: h2 :: h3 :: h4 :: rest3 =>
                          match hexVal h1, hexVal h2, hexVal h3, hexVal h4 with
                          | some a, some b, some c2, some d =>
                              let code := ((a * 16 + b) * 16 + c2) * 16 + d
                              if 0xD800 ≤ code && code ≤ 0xDBFF then
                                match rest3 with
                                | b1 :: u2 :: g1 :: g2 :: g3 :: g4 :: rest4 =>
                                    (match b1.toNat == 92 && u2 == 'u',
                                        hexVal g1, hexVal g2, hexVal g3, hexVal g4 with
                                     | true, some a2, some b2, some c3, some d2 =>
                                        let lo := ((a2 * 16 + b2) * 16 + c3) * 16 + d2
                                        if 0xDC00 ≤ lo && lo ≤ 0xDFFF then
                                          let ch := Char.ofNat
                                            (0x10000 + (code - 0xD800) * 0x400 + (lo - 0xDC00))
                                          (parseJStr fuel rest4).map
                                            (fun p => (ch :: p.1, p.2))
                                        else
                                          (parseJStr fuel rest3).map
                                            (fun p => (Char.ofNat code :: p.1, p.2))
                                     | _, _, _, _, _ =>
                                        (parseJStr fuel rest3).map
                                          (fun p => (Char.ofNat code :: p.1, p.2)))
                                | _ =>
                                    (parseJStr fuel rest3).map
                                      (fun p => (Char.ofNat code :: p.1, p.2))
                              else
                                (parseJStr fuel rest3).map
                                  (fun p => (Char.ofNat code :: p.1, p.2))
                          | _, _, _, _ => none
                      | _ => none
                    else none
          else if c.toNat < 32 then none
          else (parseJStr fuel rest).map (fun p => (c :: p.1, p.2))

/-- JSON number (or non-finite constant) at the head of the input,
following Python's scanner: `-?(0|[1-9]\d*)(\.\d+)?([eE][+-]?\d+)?`, where
a partial fraction/exponent is simply not consumed. Integers (no fraction,
no exponent) decode to `pint`, everything else to `pfloat`. -/
def parseJNum (cs : List Char) : Option (PyVal × List Char) :=
  if startsWithL cs ("NaN".data) then some (.pnan, cs.drop 3)
  else if startsWithL cs ("Infinity".data) then some (.pinf false, cs.drop 8)
  else if startsWithL cs ("-Infinity".data) then some (.pinf true, cs.drop 9)
  else
    let neg := cs.headD ' ' == '-'
    let cs1 := if neg then cs.drop 1 else cs
    match cs1 with
    | [] => none
    | c :: _ =>
        if !isAsciiDigit c then none
        else
          let intds := if c == '0' then ['0'] else cs1.takeWhile isAsciiDigit
          let cs2 := cs1.drop intds.length
          let fracds :=
            match cs2 with
            | '.' :: r => let ds := r.takeWhile isAsciiDigit
                          if ds.isEmpty then none else some ds
            | _ => none
          let cs3 := match fracds with
                     | some ds => cs2.drop (1 + ds.length)
                     | none => cs2
          let expv : Option Int :=
            match cs3 with
            | e :: r =>
                if e == 'e' || e == 'E' then
                  let (esign, r2) :=
                    match r with
                    | '+' :: r2 => ((1 : Int), r2)
                    | '-' :: r2 => ((-1 : Int), r2)
                    | _ => ((1 : Int), r)
                  let eds := r2.takeWhile isAsciiDigit
                  if eds.isEmpty then none else some (esign * digitsToNat eds)
                else none
            | [] => none
          let cs4 := match expv, cs3 with
                     | some _, _ :: r =>
                        (match r with
                         | '+' :: r2 | '-' :: r2 => r2.dropWhile isAsciiDigit
                         | _ => r.dropWhile isAsciiDigit)
                     | _, _ => cs3
          let sgn : Int := if neg then -1 else 1
          match fracds, expv with
          | none, none => some (.pint (sgn * digitsToNat intds), cs4)
          | _, _ =>
              let fl := (fracds.getD []).length
              let mantissa : ℚ :=
                (digitsToNat intds : ℚ) + (digitsToNat (fracds.getD []) : ℚ) / (10 : ℚ) ^ fl
              some (.pfloat ((sgn : ℚ) * mantissa * (10 : ℚ) ^ (expv.getD 0)), cs4)

mutual

/-- One JSON value at the head of the input (Python `json.loads` grammar,
strict mode), returning the value and the unconsumed remainder. -/
def parseJVal : Nat → List Char → Option (PyVal × List Char)
  | 0, _ => none
  | fuel + 1, cs =>
      let cs := cs.dropWhile jsonWsC
      match cs with
      | [] => none
      | c :: rest =>
          if c == 'n' then
            if startsWithL rest ("ull".data) then some (.pnone, rest.drop 3) else none
          else if c == 't' then
            if startsWithL rest ("rue".data) then some (.pbool true, rest.drop 3) else none
          else if c == 'f' then
            if startsWithL rest ("alse".data) then some (.pbool false, rest.drop 4) else none
          else if c == '"' then
            (parseJStr (rest.length + 1) rest).map
              (fun p => (.pstr (String.mk p.1), p.2))
          else if c == '[' then
            let body := rest.dropWhile jsonWsC
            match body with
            | ']' :: r => some (.plist [], r)
            | _ => (parseJArr fuel body).map (fun p => (.plist p.1, p.2))
          else if c.toNat == 123 then
            let body := rest.dropWhile jsonWsC
            match body with
            | d :: r =>
                if d.toNat == 125 then some (.pdict [], r)
                else (parseJObj fuel body).map (fun p => (.pdict p.1, p.2))
            | [] => none
          else parseJNum cs

/-- Comma-separated JSON array elements up to the closing bracket. -/
def parseJArr : Nat → List Char → Option (List PyVal × List Char)
  | 0, _ => none
  | fuel + 1, cs =>
      (parseJVal fuel cs).bind (fun p =>
        match p.2.dropWhile jsonWsC with
        | ',' :: r => (parseJArr fuel r).map (fun q => (p.1 :: q.1, q.2))
        | ']' :: r => some ([p.1], r)
        | _ => none)

/-- Comma-separated JSON object members up to the closing brace. Members
are kept in source order, duplicates included (Python keeps the last
value; lookups below take the last match). -/
def parseJObj : Nat → List Char → Option (List (String × PyVal) × List Char)
  | 0, _ => none
  | fuel + 1, cs =>
      match cs.dropWhile jsonWsC with
      | '"' :: r =>
          (parseJStr (r.length + 1) r).bind (fun kp =>
            match kp.2.dropWhile jsonWsC with
            | ':' :: r2 =>
                (parseJVal fuel r2).bind (fun vp =>
                  let entry := (String.mk kp.1, vp.1)
                  match vp.2.dropWhile jsonWsC with
                  | ',' :: r3 => (parseJObj fuel r3).map (fun q => (entry :: q.1, q.2))
                  | d :: r3 =>
                      if d.toNat == 125 then some ([entry], r3) else none
                  | [] => none)
            | _ => none)
      | _ => none

end

/-- `json.loads`: parse one value, allow trailing whitespace only. -/
def jsonLoads (cs : List Char) : Option PyVal :=
  (parseJVal (cs.length + 2) cs).bind (fun p =>
    if (p.2.dropWhile jsonWsC).isEmpty then some p.1 else none)

/-- Last-match association lookup (Python dicts built by `json.loads`
keep the last value for a duplicated key). -/
def lookupLast (fields : List (String × PyVal)) (key : String) : Option PyVal :=
  (fields.reverse.find? (fun p => p.1 == key)).map (fun p => p.2)

/-! ## `LLMService._parse_answer` (llm.py lines 95-141) -/

/-- Python `str.strip()` (ASCII whitespace fragment). -/
def pyStrip (cs : List Char) : List Char :=
  ((cs.dropWhile isWs).reverse.dropWhile isWs).reverse

/-- The float-branch guard `re.match(r"^-?\d+\.?\d*$", s)`. -/
def matchFloatRe (t : List Char) : Bool :=
  let t1 := if t.headD ' ' == '-' then t.drop 1 else t
  let ds := t1.takeWhile isAsciiDigit
  if ds.isEmpty then false
  else
    match t1.drop ds.length with
    | [] => true
    | '.' :: r2 => r2.all isAsciiDigit
    | _ => false

/-- `float(s)` for strings accepted by the float-branch guard, as an exact
decimal rational. -/
def pyFloatOfDecimal (t : List Char) : ℚ :=
  let neg := t.headD ' ' == '-'
  let t1 := if neg then t.drop 1 else t
  let ds := t1.takeWhile isAsciiDigit
  let fr := match t1.drop ds.length with
            | '.' :: r2 => r2
            | _ => []
  let q : ℚ := (digitsToNat ds : ℚ) + (digitsToNat fr : ℚ) / (10 : ℚ) ^ fr.length
  if neg then -q else q

/-- Embedding of `LLMService._parse_answer`: strip; drop fenced-block
marker lines; JSON-object-with-"answer" extraction; boolean literals;
integer literal (where `int(s)` raising `ValueError` on a multi-dash
string falls through to the next branch); decimal float; generic JSON;
verbatim string. -/
def parse_answer (answer_text : String) : PyVal :=
  let t := pyStrip answer_text.data
  let t :=
    if startsWithL t ("```".data) then
      let lines := (splitCharList '\n' t).filter
        (fun l => !startsWithL l ("```".data))
      pyStrip ((lines.intersperse ['\n']).flatten)
    else t
  let answerKey : Option PyVal :=
    if startsWithL t [Char.ofNat 123] &&
        containsL t ('"' :: ("answer".data) ++ ['"']) then
      match jsonLoads t with
      | some (.pdict fields) => lookupLast fields "answer"
      | _ => none
    else none
  match answerKey with
  | some v => v
  | none =>
      if lowerL t == ("true".data) then .pbool true
      else if lowerL t == ("false".data) then .pbool false
      else
        let stripped := t.dropWhile (fun c => c == '-')
        let intOk := !t.contains '.' && !stripped.isEmpty && stripped.all isAsciiDigit
        let dashes := t.length - stripped.length
        if intOk && dashes == 0 then .pint (digitsToNat stripped)
        else if intOk && dashes == 1 then .pint (-(digitsToNat stripped : Int))
        else if matchFloatRe t then .pfloat (pyFloatOfDecimal t)
        else
          match jsonLoads t with
          | some v => v
          | none => .pstr (String.mk t)

/-! ## Claim theorems -/

/-- **C2**: for every step whose first submission verdict has
`correct = false` and no `nextUrl`, `solve_single_quiz` performs exactly
one retry: it recomputes the answer via the visual-analysis fallback
(`va`, whatever the original category's solver `a` produced) and resubmits
exactly once, returning the second verdict as final regardless of its
outcome — the submitted-answer trace is `[a, va]` and the vision fallback
ran exactly once. -/
theorem c2_single_retry {α : Type} (su : String) (a va : α)
    (submit : Nat → α → QuizResult)
    (hsu : (su == "") = false)
    (hfail : (submit 0 a).correct = false)
    (hnourl : (submit 0 a).url = none) :
    solve_single_quiz su (Except.ok a) (Except.ok va) submit =
      Except.ok ⟨submit 1 va, [a, va], 1⟩ := by
  unfold solve_single_quiz
  simp [hsu, hfail, hnourl]

/-- Witness for `c2_single_retry`: a concrete failing-without-url first
verdict; the retried verdict is itself incorrect, and is still final. -/
theorem c2_single_retry_witness :
    solve_single_quiz "https://h/submit" (Except.ok (1 : Nat)) (Except.ok 2)
      (fun n _ => if n == 0 then ⟨false, none, none⟩ else ⟨false, some "u", some "r"⟩) =
      Except.ok ⟨⟨false, some "u", some "r"⟩, [1, 2], 1⟩ :=
  c2_single_retry "https://h/submit" 1 2
    (fun n _ => if n == 0 then ⟨false, none, none⟩ else ⟨false, some "u", some "r"⟩)
    rfl rfl rfl

/-- **C4**: `submit_answer` builds the body `(email, secret, url, answer)`;
on HTTP 200 it reads `correct`/`url`/`reason` from the decoded body with a
missing `correct` defaulting to `false`; on a non-200 status it returns
`correct = false`, `reason = "HTTP <status>: <body>"`, no `nextUrl`; on a
transport failure it returns `correct = false` with the error text and no
`nextUrl`; and it never retries internally — its outcome depends only on
the first (index-0) POST exchange. -/
theorem c4_submit_protocol {α : Type} :
    (∀ (email secret su qu : String) (ans : α) post,
      (submit_answer email secret su qu ans post).1 =
        ⟨email, secret, qu, ans⟩) ∧
    (∀ (email secret su qu : String) (ans : α) post text d,
      post 0 su ⟨email, secret, qu, ans⟩ = PostOutcome.resp 200 text (Except.ok d) →
      (submit_answer email secret su qu ans post).2 =
        ⟨d.correct.getD false, d.url, d.reason⟩) ∧
    (∀ (email secret su qu : String) (ans : α) post status text body,
      post 0 su ⟨email, secret, qu, ans⟩ = PostOutcome.resp status text body →
      status ≠ 200 →
      (submit_answer email secret su qu ans post).2 =
        ⟨false, none, some ("HTTP " ++ toString status ++ ": " ++ text)⟩) ∧
    (∀ (email secret su qu : String) (ans : α) post e,
      post 0 su ⟨email, secret, qu, ans⟩ = PostOutcome.exn e →
      (submit_answer email secret su qu ans post).2 = ⟨false, none, some e⟩) ∧
    (∀ (email secret su qu : String) (ans : α) post post2,
      post 0 = post2 0 →
      submit_answer email secret su qu ans post =
        submit_answer email secret su qu ans post2) := by
  refine ⟨fun _ _ _ _ _ _ => rfl, ?_, ?_, ?_, ?_⟩
  · intro email secret su qu ans post text d h
    unfold submit_answer
    simp [h]
  · intro email secret su qu ans post status text body h hs
    unfold submit_answer
    simp only [h]
    have : (status == 200) = false := by simp [hs]
    simp [this]
  · intro email secret su qu ans post e h
    unfold submit_answer
    simp [h]
  · intro email secret su qu ans post post2 h
    unfold submit_answer
    rw [h]

/-- Witness for `c4_submit_protocol`: concrete instantiations of the 200
branch (missing `correct` defaults to false), the non-200 branch, and the
transport branch. -/
theorem c4_submit_protocol_witness :
    (submit_answer "e@x" "s" "https://h/submit" "https://h/q" (5 : Nat)
        (fun _ _ _ => PostOutcome.resp 200 "ok" (Except.ok ⟨none, some "n", none⟩))).2 =
      ⟨false, some "n", none⟩ ∧
    (submit_answer "e@x" "s" "https://h/submit" "https://h/q" (5 : Nat)
        (fun _ _ _ => PostOutcome.resp 500 "boom" (Except.error "x"))).2 =
      ⟨false, none, some ("HTTP " ++ toString 500 ++ ": " ++ "boom")⟩ ∧
    (submit_answer "e@x" "s" "https://h/submit" "https://h/q" (5 : Nat)
        (fun _ _ _ => PostOutcome.exn "timeout")).2 =
      ⟨false, none, some "timeout"⟩ :=
  ⟨(c4_submit_protocol.2.1) "e@x" "s" "https://h/submit" "https://h/q" 5 _ "ok"
      ⟨none, some "n", none⟩ rfl,
   (c4_submit_protocol.2.2.1) "e@x" "s" "https://h/submit" "https://h/q" 5 _ 500 "boom"
      (Except.error "x") rfl (by decide),
   (c4_submit_protocol.2.2.2.1) "e@x" "s" "https://h/submit" "https://h/q" 5 _ "timeout" rfl⟩

/-- **C10**: `submit_answer` is a total function (every branch returns a
`QuizResult`); in particular an HTTP 200 response whose body fails to
decode as JSON yields `correct = false`, `reason` = the exception text,
and no `nextUrl`. -/
theorem c10_bad_json_on_200 {α : Type} (email secret su qu : String)
    (ans : α) (post : Nat → String → AnswerSubmission α → PostOutcome)
    (text e : String)
    (h : post 0 su ⟨email, secret, qu, ans⟩ = PostOutcome.resp 200 text (Except.error e)) :
    (submit_answer email secret su qu ans post).2 = ⟨false, none, some e⟩ := by
  unfold submit_answer
  simp [h]

/-- Witness for `c10_bad_json_on_200`: a concrete 200 response whose body
decoding raises. -/
theorem c10_bad_json_on_200_witness :
    (submit_answer "e@x" "s" "https://h/submit" "https://h/q" (true : Bool)
        (fun _ _ _ => PostOutcome.resp 200 "<html>" (Except.error "Expecting value"))).2 =
      ⟨false, none, some "Expecting value"⟩ :=
  c10_bad_json_on_200 "e@x" "s" "https://h/submit" "https://h/q" true _
    "<html>" "Expecting value" rfl

/-- **C5**: whenever some anchor's href contains "submit"
(case-insensitively), `_extract_submission_url` returns that href (the
first such anchor in document order) verbatim, whatever the page text
contains — the anchor rule outranks the text-pattern, synthesized-origin
and fallback rules. -/
theorem c5_anchor_priority (text : String) (links : List String) (href : String)
    (h : links.find? (fun l => containsL (lowerL l.data) ("submit".data)) = some href) :
    extract_submission_url text links = href := by
  unfold extract_submission_url
  simp [h]

/-- Witness for `c5_anchor_priority`: an anchor href wins over a page text
that matches the "Post your answer to URL" pattern. -/
theorem c5_anchor_priority_witness :
    extract_submission_url "Post your answer to https://x/y" ["/page", "/Submit?x=1"] =
      "/Submit?x=1" :=
  c5_anchor_priority "Post your answer to https://x/y" ["/page", "/Submit?x=1"]
    "/Submit?x=1" rfl

/-- **C6**: the Answer Normalizer's fixed rule order
(JSON-object-with-"answer" before generic JSON, booleans before numbers,
integer before float) on the spec's four examples: a JSON object with an
"answer" key yields the integer inside, "true" yields the boolean, "3.14"
yields the (exactly-represented) float, "hello" falls through to a
verbatim string. -/
theorem c6_normalizer_examples :
    parse_answer "\x7b\"answer\": 42\x7d" = PyVal.pint 42 ∧
    parse_answer "true" = PyVal.pbool true ∧
    parse_answer "3.14" = PyVal.pfloat (3.14 : ℚ) ∧
    parse_answer "hello" = PyVal.pstr "hello" := by
  refine ⟨rfl, rfl, ?_, rfl⟩
  have h1 : parse_answer "3.14" = PyVal.pfloat (pyFloatOfDecimal ("3.14".data)) := rfl
  have hq : pyFloatOfDecimal ("3.14".data) =
      ((3 : Nat) : ℚ) + ((14 : Nat) : ℚ) / (10 : ℚ) ^ (2 : Nat) := rfl
  rw [h1, hq]
  congr 1
  norm_num

/-- **C7 counterexample**: `"httpx/y"` carries no URL scheme (its parse
has an empty scheme component), yet `make_absolute_url` returns it
unchanged instead of resolving it against the base's scheme+host
(`urljoin` against the origin would give
`"https://host.example/httpx/y"`), because the source tests
`url.startswith("http")`, not "has a scheme". -/
theorem c7_counterexample :
    (urlparseM ("httpx/y".data) []).scheme = [] ∧
    make_absolute_url "httpx/y" "https://host.example/quiz/1" = "httpx/y" ∧
    make_absolute_url "httpx/y" "https://host.example/quiz/1" ≠
      "https://host.example/httpx/y" :=
  ⟨rfl, rfl, by decide⟩

/-- **C7 (amended)**: a URL starting with the four characters `"http"` is
returned unchanged; any other URL is resolved against a base built from
only the scheme and netloc of the page URL — so two bases agreeing on
scheme and netloc give identical results whatever their path/query — and
`"/submit"` against `"https://host.example/quiz/1"` yields
`"https://host.example/submit"`. -/
theorem c7_make_absolute_amended :
    (∀ url base_url : String, startsWithL url.data ("http".data) = true →
      make_absolute_url url base_url = url) ∧
    (∀ url b1 b2 : String, startsWithL url.data ("http".data) = false →
      (urlparseM b1.data []).scheme = (urlparseM b2.data []).scheme →
      (urlparseM b1.data []).netloc = (urlparseM b2.data []).netloc →
      make_absolute_url url b1 = make_absolute_url url b2) ∧
    make_absolute_url "/submit" "https://host.example/quiz/1" =
      "https://host.example/submit" := by
  refine ⟨?_, ?_, rfl⟩
  · intro url base_url h
    unfold make_absolute_url
    rw [h]
    rfl
  · intro url b1 b2 h hs hn
    simp only [make_absolute_url, h, Bool.false_eq_true, if_false]
    rw [hs, hn]

/-- Witness for `c7_make_absolute_amended`: an absolute http URL is kept
verbatim, and the origin-relative resolution ignores the base's path. -/
theorem c7_make_absolute_amended_witness :
    make_absolute_url "http://a/b" "https://h.x/q" = "http://a/b" ∧
    make_absolute_url "img/x.png" "https://h.x/deep/path?q=1" =
      make_absolute_url "img/x.png" "https://h.x/other" :=
  ⟨c7_make_absolute_amended.1 "http://a/b" "https://h.x/q" rfl,
   c7_make_absolute_amended.2.1 "img/x.png" "https://h.x/deep/path?q=1"
     "https://h.x/other" rfl rfl rfl⟩

/-- **C8 counterexample**: a solver exception during dispatch is NOT
converted into a visual-analysis fallback for the step — it propagates out
of `solve_single_quiz` (no submission, no vision retry), and at chain
level the `except` handler `break`s: a chain whose first step raises
terminates after that one attempt with no recorded result, instead of
retrying the step with vision. -/
theorem c8_counterexample :
    solve_single_quiz "https://h/submit" (Except.error "solver boom")
      (Except.ok (0 : Nat)) (fun _ _ => ⟨true, none, none⟩) =
      Except.error "solver boom" ∧
    solve_quiz_chain (fun _ _ => none) "https://h/q1" 20 = ([], 1) := by
  constructor
  · rfl
  · rw [solve_quiz_chain, chainLoop]
    rfl

/-- **C8 (amended)**: an exception from `_solve_by_type` propagates out of
`solve_single_quiz` unchanged (the step is aborted: nothing is submitted
and no vision fallback runs), and the chain loop's `except` branch then
terminates the whole chain, recording no result for the raising step. -/
theorem c8_exception_aborts_chain {α : Type} :
    (∀ (su : String) (e : String) (vision : Except String α)
        (submit : Nat → α → QuizResult), (su == "") = false →
      solve_single_quiz su (Except.error e) vision submit = Except.error e) ∧
    (∀ (step : Nat → String → Option QuizResult) (init : String) (max_q : Nat),
      (init == "") = false → 0 < max_q → step 1 init = none →
      solve_quiz_chain step init max_q = ([], 1)) := by
  constructor
  · intro su e vision submit h
    simp [solve_single_quiz, h]
  · intro step init max_q hinit hmax hstep
    rw [solve_quiz_chain, chainLoop]
    have ht : truthyUrl (some init) = true := by
      simp [truthyUrl, hinit]
    simp [ht, hmax, hstep]

/-- Witness for `c8_exception_aborts_chain`: concrete raising solver and
raising step. -/
theorem c8_exception_aborts_chain_witness :
    solve_single_quiz "https://h/submit" (Except.error "boom")
      (Except.ok (7 : Nat)) (fun _ _ => ⟨true, some "n", none⟩) =
      Except.error "boom" ∧
    solve_quiz_chain (fun _ _ => none) "https://h/q1" 5 = ([], 1) :=
  ⟨(@c8_exception_aborts_chain Nat).1 "https://h/submit" "boom" (Except.ok 7)
     (fun _ _ => ⟨true, some "n", none⟩) rfl,
   (@c8_exception_aborts_chain Nat).2 (fun _ _ => none) "https://h/q1" 5 rfl
     (by decide) rfl⟩

/-- **C9 counterexample**: the fixed extension list has no `.xls` entry —
an anchor (and page text) containing `report.xls` yields no download
endpoint although `.xls` occurs — and the text scan is by extension
priority, not first occurrence: a text whose first matching URL is
`.../f.csv` (with a `.pdf` URL later) returns the `.pdf` URL. -/
theorem c9_counterexample :
    (sContainsCI "report.xls" ".xls" = true ∧
      extract_download_url ["report.xls"] "download report.xls" = none) ∧
    extract_download_url [] "get http://a/f.csv then http://b/g.pdf" =
      some "http://b/g.pdf" :=
  ⟨⟨rfl, rfl⟩, rfl⟩

/-- **C9 (amended)**: download extraction scans anchors first for the first
href containing one of the six extensions pdf/csv/json/xlsx/txt/zip (no
xls) — anchor matches beat any text match — then scans the page text once
per extension in that fixed order (so a pdf text-match beats an
earlier-occurring csv one), and returns absent when nothing matches. -/
theorem c9_download_extraction_amended :
    (∀ (links : List String) (text href : String),
      links.find? (fun h =>
        file_extensions.any (fun e => containsL (lowerL h.data) e.data)) = some href →
      extract_download_url links text = some href) ∧
    extract_download_url [] "get http://a/f.csv then http://b/g.pdf" =
      some "http://b/g.pdf" ∧
    extract_download_url ["report.xls"] "no files here" = none := by
  refine ⟨?_, rfl, rfl⟩
  intro links text href h
  unfold extract_download_url
  rw [h]

/-- Witness for `c9_download_extraction_amended`: an anchor `.csv` href is
preferred over a `.pdf` URL in the page text. -/
theorem c9_download_extraction_amended_witness :
    extract_download_url ["/files/d.csv"] "also http://b/g.pdf" =
      some "/files/d.csv" :=
  c9_download_extraction_amended.1 ["/files/d.csv"] "also http://b/g.pdf"
    "/files/d.csv" rfl

/-- **C1 counterexample**: the source tests extensions by substring
(`".pdf" in url.lower()`), not by suffix: a download URL ending in `.csv`
but containing `.pdf` earlier is classified `pdf`, while the claim's
priority rules ("ends in `.csv`/... forces tabular-data") require `data`. -/
theorem c1_counterexample :
    sEndsWith "report.pdf.csv" ".csv" = true ∧
    sEndsWith "report.pdf.csv" ".pdf" = false ∧
    determine_quiz_type "" (some "report.pdf.csv") = "pdf" :=
  ⟨rfl, rfl, rfl⟩

/-- **C1 (amended)**: classification priority with substring
(case-insensitive) extension evidence: a download URL containing `.pdf`
is `pdf` whatever the text; otherwise one containing `.csv`/`.xlsx`/`.json`
is `data` (the source's name for tabular-data) whatever the text;
otherwise the keyword cascade runs on the lowercased text in the fixed
order api → visualization → data-keywords → scraping → general; and the
spec's example (a `.pdf` download URL plus the word "chart") is `pdf`. -/
theorem c1_classification_priority :
    (∀ t u : String, sContainsCI u ".pdf" = true →
      determine_quiz_type t (some u) = "pdf") ∧
    (∀ t u : String, sContainsCI u ".pdf" = false →
      ([".csv", ".xlsx", ".json"].any (fun e => sContainsCI u e)) = true →
      determine_quiz_type t (some u) = "data") ∧
    (∀ t u : String, sContainsCI u ".pdf" = false →
      ([".csv", ".xlsx", ".json"].any (fun e => sContainsCI u e)) = false →
      determine_quiz_type t (some u) = keyword_quiz_type (lowerL t.data)) ∧
    (∀ t : String, determine_quiz_type t none = keyword_quiz_type (lowerL t.data)) ∧
    (∀ t : String, (sContainsCI t "api" || sContainsCI t "endpoint") = true →
      keyword_quiz_type (lowerL t.data) = "api") ∧
    (∀ t : String, (sContainsCI t "api" || sContainsCI t "endpoint") = false →
      (["chart", "plot", "graph", "visualiz"].any (fun w => sContainsCI t w)) = true →
      keyword_quiz_type (lowerL t.data) = "visualization") ∧
    (∀ t : String, (sContainsCI t "api" || sContainsCI t "endpoint") = false →
      (["chart", "plot", "graph", "visualiz"].any (fun w => sContainsCI t w)) = false →
      (["sum", "average", "count", "filter", "sort", "aggregate"].any
        (fun w => sContainsCI t w)) = true →
      keyword_quiz_type (lowerL t.data) = "data") ∧
    (∀ t : String, (sContainsCI t "api" || sContainsCI t "endpoint") = false →
      (["chart", "plot", "graph", "visualiz"].any (fun w => sContainsCI t w)) = false →
      (["sum", "average", "count", "filter", "sort", "aggregate"].any
        (fun w => sContainsCI t w)) = false →
      (["scrape", "extract", "website", "page"].any (fun w => sContainsCI t w)) = true →
      keyword_quiz_type (lowerL t.data) = "scraping") ∧
    (∀ t : String, (sContainsCI t "api" || sContainsCI t "endpoint") = false →
      (["chart", "plot", "graph", "visualiz"].any (fun w => sContainsCI t w)) = false →
      (["sum", "average", "count", "filter", "sort", "aggregate"].any
        (fun w => sContainsCI t w)) = false →
      (["scrape", "extract", "website", "page"].any (fun w => sContainsCI t w)) = false →
      keyword_quiz_type (lowerL t.data) = "general") ∧
    determine_quiz_type "The page shows a chart" (some "https://x/data.pdf") = "pdf" := by
  refine ⟨?_, ?_, ?_, fun _ => rfl, ?_, ?_, ?_, ?_, ?_, rfl⟩
  · intro t u h
    simp only [sContainsCI] at h
    simp [determine_quiz_type, h]
  · intro t u h1 h2
    simp only [sContainsCI] at h1 h2
    simp [determine_quiz_type, h1, h2]
  · intro t u h1 h2
    simp only [sContainsCI] at h1 h2
    simp [determine_quiz_type, h1, h2]
  · intro t h
    simp only [sContainsCI] at h
    simp [keyword_quiz_type, h]
  · intro t h1 h2
    simp only [sContainsCI] at h1 h2
    simp [keyword_quiz_type, h1, h2]
  · intro t h1 h2 h3
    simp only [sContainsCI] at h1 h2 h3
    simp [keyword_quiz_type, h1, h2, h3]
  · intro t h1 h2 h3 h4
    simp only [sContainsCI] at h1 h2 h3 h4
    simp [keyword_quiz_type, h1, h2, h3, h4]
  · intro t h1 h2 h3 h4
    simp only [sContainsCI] at h1 h2 h3 h4
    simp [keyword_quiz_type, h1, h2, h3, h4]

/-- Witness for `c1_classification_priority`: concrete instantiations of
the pdf rule (beating a visualization keyword), the tabular rule (beating
an api keyword), and two keyword-cascade rules. -/
theorem c1_classification_priority_witness :
    determine_quiz_type "a chart" (some "x.pdf") = "pdf" ∧
    determine_quiz_type "an api" (some "x.csv") = "data" ∧
    keyword_quiz_type (lowerL ("use the API".data)) = "api" ∧
    keyword_quiz_type (lowerL ("plot it".data)) = "visualization" :=
  ⟨c1_classification_priority.1 "a chart" "x.pdf" rfl,
   c1_classification_priority.2.1 "an api" "x.csv" rfl rfl,
   c1_classification_priority.2.2.2.2.1 "use the API" rfl,
   c1_classification_priority.2.2.2.2.2.1 "plot it" rfl rfl⟩

/-- Loop invariant of `chainLoop`: the step counter never exceeds the
configured maximum (it is only incremented under the guard
`count < max_questions`). -/
theorem chainLoop_count_le (step : Nat → String → Option QuizResult) (max_q : Nat) :
    ∀ (n : Nat) (cur : Option String) (count : Nat) (results : List QuizResult),
      max_q - count ≤ n → count ≤ max_q →
      (chainLoop step max_q cur count results).2 ≤ max_q := by
  intro n
  induction n with
  | zero =>
      intro cur count results hn hc
      rw [chainLoop, dif_neg]
      · exact hc
      · rintro ⟨-, h2⟩
        omega
  | succ n ih =>
      intro cur count results hn hc
      rw [chainLoop]
      by_cases hg : truthyUrl cur = true ∧ count < max_q
      · rw [dif_pos hg]
        obtain ⟨-, hlt⟩ := hg
        cases hstep : step (count + 1) (cur.getD "") with
        | none => simpa using hlt
        | some r => exact ih r.url (count + 1) (results ++ [r]) (by omega) (by omega)
      · rw [dif_neg hg]
        exact hc

/-- When every step succeeds and always supplies a truthy `nextUrl`, the
loop runs until the counter reaches the maximum, recording one result per
iteration. -/
theorem chainLoop_always_next (step : Nat → String → Option QuizResult) (max_q : Nat)
    (hstep : ∀ k u, ∃ r, step k u = some r ∧ truthyUrl r.url = true) :
    ∀ (n : Nat) (cur : Option String) (count : Nat) (results : List QuizResult),
      max_q - count ≤ n → count ≤ max_q → truthyUrl cur = true →
      (chainLoop step max_q cur count results).2 = max_q ∧
      (chainLoop step max_q cur count results).1.length =
        results.length + (max_q - count) := by
  intro n
  induction n with
  | zero =>
      intro cur count results hn hc _
      have hce : count = max_q := by omega
      rw [chainLoop, dif_neg]
      · subst hce
        exact ⟨rfl, by simp⟩
      · rintro ⟨-, h2⟩
        omega
  | succ n ih =>
      intro cur count results hn hc ht
      rw [chainLoop]
      by_cases hlt : count < max_q
      · rw [dif_pos ⟨ht, hlt⟩]
        obtain ⟨r, hr, hru⟩ := hstep (count + 1) (cur.getD "")
        rw [hr]
        have hrec := ih r.url (count + 1) (results ++ [r]) (by omega) (by omega) hru
        refine ⟨hrec.1, ?_⟩
        rw [hrec.2]
        simp only [List.length_append, List.length_cons, List.length_nil]
        omega
      · rw [dif_neg (fun hg => hlt hg.2)]
        have hce : count = max_q := by omega
        subst hce
        exact ⟨rfl, by simp⟩

/-- **C3**: the chain loop (i) never lets the step counter exceed the
maximum; (ii) stops exactly when the advanced `currentUrl` is not truthy
or the counter has reached the maximum; (iii) performs another
fetch/submit cycle exactly when the guard holds (whatever the verdict's
`correct` flag was — only `nextUrl` presence matters); and (iv) against a
server that always returns a non-empty `nextUrl`, a chain with maximum `N`
performs exactly `N` cycles, recording `N` results, and stops. -/
theorem c3_chain_loop :
    (∀ (step : Nat → String → Option QuizResult) (init : String) (max_q : Nat),
      (solve_quiz_chain step init max_q).2 ≤ max_q) ∧
    (∀ (step : Nat → String → Option QuizResult) (max_q : Nat) cur count results,
      ¬(truthyUrl cur = true ∧ count < max_q) →
      chainLoop step max_q cur count results = (results, count)) ∧
    (∀ (step : Nat → String → Option QuizResult) (max_q : Nat) cur count results r,
      truthyUrl cur = true → count < max_q →
      step (count + 1) (cur.getD "") = some r →
      chainLoop step max_q cur count results =
        chainLoop step max_q r.url (count + 1) (results ++ [r])) ∧
    (∀ (step : Nat → String → Option QuizResult) (init : String) (max_q : Nat),
      (init == "") = false →
      (∀ k u, ∃ r, step k u = some r ∧ truthyUrl r.url = true) →
      (solve_quiz_chain step init max_q).2 = max_q ∧
      (solve_quiz_chain step init max_q).1.length = max_q) := by
  refine ⟨?_, ?_, ?_, ?_⟩
  · intro step init max_q
    exact chainLoop_count_le step max_q max_q (some init) 0 [] (by omega) (by omega)
  · intro step max_q cur count results h
    rw [chainLoop, dif_neg h]
  · intro step max_q cur count results r ht hlt hstep
    rw [chainLoop, dif_pos ⟨ht, hlt⟩, hstep]
  · intro step init max_q hinit hstep
    have ht : truthyUrl (some init) = true := by simp [truthyUrl, hinit]
    have h := chainLoop_always_next step max_q hstep max_q (some init) 0 []
      (by omega) (by omega) ht
    exact ⟨h.1, by simpa using h.2⟩

/-- Witness for `c3_chain_loop`: a server that always answers
`correct = false` but with a `nextUrl`; with the maximum set to 2 the
chain performs exactly 2 cycles and records 2 results. -/
theorem c3_chain_loop_witness :
    (solve_quiz_chain (fun _ _ => some ⟨false, some "https://h/next", none⟩)
        "https://h/q1" 2).2 = 2 ∧
    (solve_quiz_chain (fun _ _ => some ⟨false, some "https://h/next", none⟩)
        "https://h/q1" 2).1.length = 2 :=
  c3_chain_loop.2.2.2 (fun _ _ => some ⟨false, some "https://h/next", none⟩)
    "https://h/q1" 2 rfl
    (fun _ _ => ⟨⟨false, some "https://h/next", none⟩, rfl, rfl⟩)

end PROD2
